import Mathlib

/-!
Verification of the cjdns DHT search runner (`src/dht/dhtcore/SearchRunner.c`).

The C file is shallowly embedded below.  External collaborators that are not
part of this repository snapshot (NodeStore, RumorMill, LabelSplicer,
AddressCalc, VersionList) are abstracted into an `Env` record of functions, so
every theorem about the pipeline quantifies over their behaviour.  Address
arithmetic and serialization (Address.h) are modelled from the specification
document.  Bytes are `List Nat`, machine integers are `Nat` with explicit
sentinel values.
-/

set_option autoImplicit false

namespace SearchRunner

/-- `Address_SERIALIZED_SIZE`. Modelled from the spec: a serialized node
record is 40 bytes ("8-byte path || 32-byte key"). -/
def Address_SERIALIZED_SIZE : Nat := 40

/-- `Address_KEY_SIZE`. Modelled from the spec: the public key is 32 bytes. -/
def Address_KEY_SIZE : Nat := 32

/-- `UINT64_MAX`, the sentinel returned by `LabelSplicer_splice` on failure. -/
def UINT64_MAX : Nat := 2 ^ 64 - 1

/-- `MAX_REQUESTS_PER_SEARCH` from SearchRunner.c line 34: the maximum number
of requests to make before calling a search failed. -/
def MAX_REQUESTS_PER_SEARCH : Nat := 8

/-- `struct Address` (dht/Address.h, external): 16-byte overlay identifier,
32-byte public key, 64-bit route label, protocol version. -/
structure Address where
  ip6 : List Nat
  key : List Nat
  path : Nat
  version : Nat
deriving DecidableEq, Repr

/-- An `Address` with every field zeroed, as produced by `calloc`/designated
initializers in the C code. -/
def zeroAddress : Address :=
  { ip6 := List.replicate 16 0, key := List.replicate 32 0, path := 0, version := 0 }

/-- `struct Node_Two` (dht/dhtcore/Node.h, external): only the `address`
field is read by SearchRunner.c. -/
structure Node where
  address : Address
deriving DecidableEq, Repr

/-- The reply dictionary as read by `searchReplyCallback`: the `n` entry
(concatenated node records) and the `np` entry (serialized version list).
`none` models `Dict_getString` returning `NULL`. -/
structure Dict where
  n : Option (List Nat)
  np : Option (List Nat)
deriving DecidableEq, Repr

/-- Modelled from the spec: the external collaborators consumed by the
search runner, §6 of the spec.  Each field abstracts one C function:
`prefixOf` is `Address_getPrefix` (fills `ip6` from `key`), `validAddress`
is `AddressCalc_validAddress`, `splice` is `LabelSplicer_splice`,
`nodeForPath` is `NodeStore_nodeForPath`, `getBest` is `NodeStore_getBest`,
and `parseVersions` is `VersionList_parse` (`none` models a `NULL` result). -/
structure Env where
  prefixOf : List Nat → List Nat
  validAddress : List Nat → Bool
  splice : Nat → Nat → Nat
  nodeForPath : Nat → Option Node
  getBest : Address → Option Node
  parseVersions : List Nat → Option (List Nat)

/-- Big-endian bytes to natural number, for the 8-byte path label of a
serialized record. -/
def natOfBytes (bs : List Nat) : Nat :=
  bs.foldl (fun a b => a * 256 + b) 0

/-- `Address_parse` (dht/Address.h, external). Modelled from the spec:
a record is "8-byte path || 32-byte key"; parsing fills `key` and `path`,
leaving `ip6` to be derived from the key and the version to be assigned
by the caller. -/
def Address_parse (bytes : List Nat) : Address :=
  { ip6 := [], key := (bytes.drop 8).take Address_KEY_SIZE,
    path := natOfBytes (bytes.take 8), version := 0 }

/-- Byte-wise XOR of two identifiers. -/
def xorBytes (a b : List Nat) : List Nat :=
  List.zipWith (fun x y => Nat.xor x y) a b

/-- Lexicographic three-way comparison of byte strings. -/
def lexCompare : List Nat → List Nat → Int
  | [], [] => 0
  | [], _ :: _ => -1
  | _ :: _, [] => 1
  | a :: as, b :: bs => if a < b then -1 else if b < a then 1 else lexCompare as bs

/-- `Address_closest` (dht/Address.h, external). Modelled from the spec:
distance is XOR over the 16-byte identifier, lexicographic; the result is
negative iff `a` is strictly closer to `target` than `b`. -/
def Address_closest (target a b : Address) : Int :=
  lexCompare (xorBytes target.ip6 a.ip6) (xorBytes target.ip6 b.ip6)

/-- Inner scan of `isDuplicateEntry` (SearchRunner.c lines 116-123): walk
offsets `i, i+40, ...` while `i < nodes.len`, skipping `i = index`, and
report whether the `Address_KEY_SIZE`-byte block at some visited offset
equals the block at `index` (`Bits_memcmp == 0`). -/
def dupScan (nodes : List Nat) (index : Nat) (i : Nat) : Bool :=
  if i < nodes.length then
    if i = index then
      dupScan nodes index (i + Address_SERIALIZED_SIZE)
    else if (nodes.drop index).take Address_KEY_SIZE = (nodes.drop i).take Address_KEY_SIZE then
      true
    else
      dupScan nodes index (i + Address_SERIALIZED_SIZE)
  else
    false
termination_by nodes.length - i
decreasing_by
  all_goals simp only [Address_SERIALIZED_SIZE]; omega

/-- `isDuplicateEntry` (SearchRunner.c lines 114-125): true when a later
record in the same reply repeats the compared block, so that only the last
occurrence is accepted. -/
def isDuplicateEntry (nodes : List Nat) (index : Nat) : Bool :=
  dupScan nodes index index

/-- The address a record yields after `Address_parse`, version assignment,
`Address_getPrefix` and the `LabelSplicer_splice` onto the responder's path
(SearchRunner.c lines 166-175). -/
def recordAddr (env : Env) (nodes vs : List Nat) (i : Nat) (fromAddr : Address) : Address :=
  let a0 := Address_parse ((nodes.drop i).take Address_SERIALIZED_SIZE)
  let a1 := { a0 with version := vs.getD (i / Address_SERIALIZED_SIZE) 0 }
  let a2 := { a1 with ip6 := env.prefixOf a1.key }
  { a2 with path := env.splice a2.path fromAddr.path }

/-- The externally visible effect of processing one record of a reply. -/
structure RecordEffect where
  rumor : Option Address
  broken : Option Nat
  insert : Option Address
  brk : Bool
deriving DecidableEq, Repr

/-- One iteration of the record loop of `searchReplyCallback`
(SearchRunner.c lines 162-226): intra-reply dedup, parse, version, prefix
derivation, splice (drop on `UINT64_MAX`), loop-route detection
(`NodeStore_brokenPath`), overlay validity (`break` on failure), rumor-mill
intake, progress filter (`Address_closest ≥ 0` drops), late-reply guard
(`lastNodeAsked.path != fromNode->address.path` drops), and canonicalized
insertion into the search store. -/
def recordEffect (env : Env) (myAddress : List Nat) (target : Address)
    (lastAskedPath : Nat) (fromAddr : Address)
    (nodes vs : List Nat) (i : Nat) : RecordEffect :=
  if isDuplicateEntry nodes i then
    { rumor := none, broken := none, insert := none, brk := false }
  else
    let addr := recordAddr env nodes vs i fromAddr
    if addr.path = UINT64_MAX then
      { rumor := none, broken := none, insert := none, brk := false }
    else if myAddress = addr.ip6 then
      { rumor := none, broken := some addr.path, insert := none, brk := false }
    else if env.validAddress addr.ip6 then
      let rumor :=
        match env.nodeForPath addr.path with
        | none => some addr
        | some nn => if nn.address.key = addr.key then none else some addr
      let insert :=
        if 0 ≤ Address_closest target addr fromAddr then none
        else if lastAskedPath ≠ fromAddr.path then none
        else
          match env.getBest addr with
          | some n => some n.address
          | none => some addr
      { rumor := rumor, broken := none, insert := insert, brk := false }
    else
      { rumor := none, broken := none, insert := none, brk := true }

/-- The accumulated external effects of a whole reply: rumor-mill intakes,
broken-path reports, and search-store insertions, each in program order. -/
structure ReplyEffects where
  rumors : List Address
  brokens : List Nat
  inserts : List Address
deriving DecidableEq, Repr

/-- The reply effects of doing nothing. -/
def emptyEffects : ReplyEffects :=
  { rumors := [], brokens := [], inserts := [] }

/-- Concatenation of reply effects in program order. -/
def mergeEffects (a b : ReplyEffects) : ReplyEffects :=
  { rumors := a.rumors ++ b.rumors, brokens := a.brokens ++ b.brokens,
    inserts := a.inserts ++ b.inserts }

/-- The record loop of `searchReplyCallback` from byte offset `i` onward:
each record contributes its effect; a record whose address fails
`AddressCalc_validAddress` terminates the loop (`break`) with no effect of
its own. -/
def processRecords (env : Env) (myAddress : List Nat) (target : Address)
    (lastAskedPath : Nat) (fromAddr : Address)
    (nodes vs : List Nat) (i : Nat) : ReplyEffects :=
  if i < nodes.length then
    let e := recordEffect env myAddress target lastAskedPath fromAddr nodes vs i
    if e.brk then
      emptyEffects
    else
      mergeEffects
        { rumors := e.rumor.toList, brokens := e.broken.toList, inserts := e.insert.toList }
        (processRecords env myAddress target lastAskedPath fromAddr nodes vs
          (i + Address_SERIALIZED_SIZE))
  else
    emptyEffects
termination_by nodes.length - i
decreasing_by
  all_goals simp only [Address_SERIALIZED_SIZE]; omega

/-- `searchReplyCallback` (SearchRunner.c lines 129-232).  Returns `some`
effects when the function runs to completion (including the degenerate
"drop reply" paths, which have empty effects) and `none` on the one path
with undefined behaviour: when `n` is absent but `np` parses, line 157
evaluates `nodes->len` with `nodes == NULL`. -/
def searchReplyCallback (env : Env) (myAddress : List Nat) (target : Address)
    (lastAskedPath : Nat) (fromAddr : Address) (result : Dict) :
    Option ReplyEffects :=
  match result.n with
  | some nodes =>
    if nodes.length = 0 ∨ nodes.length % Address_SERIALIZED_SIZE ≠ 0 then
      some emptyEffects
    else
      match result.np with
      | none => some emptyEffects
      | some vstr =>
        match env.parseVersions vstr with
        | none => some emptyEffects
        | some vs =>
          if vs.length ≠ nodes.length / Address_SERIALIZED_SIZE then
            some emptyEffects
          else
            some (processRecords env myAddress target lastAskedPath fromAddr nodes vs 0)
  | none =>
    match result.np with
    | none => some emptyEffects
    | some vstr =>
      match env.parseVersions vstr with
      | none => some emptyEffects
      | some _ => none

/-- Modelled from the spec: one entry of the per-search frontier
(SearchStore), an address plus its "queried?" flag (§4.1). -/
structure FrontierEntry where
  addr : Address
  queried : Bool
deriving DecidableEq, Repr

/-- Number of entries of a frontier that have not been queried yet. -/
def countUnqueried (f : List FrontierEntry) : Nat :=
  (f.filter (fun e => !e.queried)).length

/-- `SearchStore_addNodeToSearch`. Modelled from the spec: insert unless an
entry with the same key already exists; re-adding a known key is a no-op,
including its queried flag (§4.1). -/
def SearchStore_addNodeToSearch (a : Address) (f : List FrontierEntry) :
    List FrontierEntry :=
  if f.any (fun e => e.addr.key == a.key) then f
  else f ++ [{ addr := a, queried := false }]

/-- `SearchStore_getNextNode`. Modelled from the spec: return and mark
queried the unqueried entry with smallest XOR distance to the target, ties
broken by insertion order; `none` when no unqueried entry remains (§4.1). -/
def SearchStore_getNextNode (target : Address) :
    List FrontierEntry → Option Address × List FrontierEntry
  | [] => (none, [])
  | e :: rest =>
    if e.queried then
      let r := SearchStore_getNextNode target rest
      (r.1, e :: r.2)
    else
      match SearchStore_getNextNode target rest with
      | (some b, rest') =>
        if lexCompare (xorBytes target.ip6 b.ip6) (xorBytes target.ip6 e.addr.ip6) < 0 then
          (some b, e :: rest')
        else
          (some e.addr, { e with queried := true } :: rest)
      | (none, _) => (some e.addr, { e with queried := true } :: rest)

/-- Selecting a node from the frontier marks exactly one unqueried entry as
queried; a `none` result leaves the frontier unchanged. -/
theorem getNextNode_count (target : Address) (f : List FrontierEntry) :
    ((SearchStore_getNextNode target f).1.isSome = true →
      countUnqueried f = countUnqueried (SearchStore_getNextNode target f).2 + 1) ∧
    ((SearchStore_getNextNode target f).1.isNone = true →
      (SearchStore_getNextNode target f).2 = f) := by
  induction f with
  | nil => simp [SearchStore_getNextNode]
  | cons e rest ih =>
    rcases hr : SearchStore_getNextNode target rest with ⟨r1, r2⟩
    rw [hr] at ih
    by_cases hq : e.queried = true
    · cases r1 with
      | none =>
        simp only [SearchStore_getNextNode, hq, if_true, hr]
        simp only [Option.isSome_none, Option.isNone_none] at *
        constructor
        · intro h; exact absurd h (by simp)
        · intro _
          have := ih.2 trivial
          rw [this]
      | some b =>
        simp only [SearchStore_getNextNode, hq, if_true, hr]
        simp only [Option.isSome_some, Option.isNone_some] at *
        constructor
        · intro _
          have := ih.1 trivial
          simp [countUnqueried, List.filter, hq] at *
          omega
        · intro h; exact absurd h (by simp)
    · cases r1 with
      | none =>
        simp only [SearchStore_getNextNode, hq, if_false, hr, Bool.false_eq_true]
        simp [countUnqueried, List.filter, hq]
      | some b =>
        by_cases hcmp :
            lexCompare (xorBytes target.ip6 b.ip6) (xorBytes target.ip6 e.addr.ip6) < 0
        · simp only [SearchStore_getNextNode, hq, if_false, hr, hcmp, if_true,
            Bool.false_eq_true]
          simp only [Option.isSome_some, Option.isNone_some] at *
          constructor
          · intro _
            have := ih.1 trivial
            simp [countUnqueried, List.filter, hq] at *
            omega
          · intro h; exact absurd h (by simp)
        · simp only [SearchStore_getNextNode, hq, if_false, hr, hcmp, Bool.false_eq_true]
          simp [countUnqueried, List.filter, hq]

/-- The state of one `struct SearchRunner_Search` together with its liveness:
`alive = false` after `Allocator_free(search->pub.alloc)`; `crashed = true`
when undefined behaviour in `searchReplyCallback` was reached. -/
structure SState where
  totalRequests : Nat
  lastNodeAsked : Address
  frontier : List FrontierEntry
  alive : Bool
  crashed : Bool
deriving DecidableEq, Repr

/-- One invocation of the caller-supplied observer callback
(`search->pub.callback`): the node argument (`none` for `NULL`), the latency
argument, the payload argument, and a ghost marker telling whether the call
is the terminal emission of `searchStep` (line 268). -/
structure ObsCall where
  node : Option Address
  lag : Nat
  payload : Option Dict
  terminal : Bool
deriving DecidableEq, Repr

/-- The terminal observer invocation `callback(&pub, 0, NULL, NULL)` of
`searchStep` (SearchRunner.c line 268). -/
def terminalCall : ObsCall :=
  { node := none, lag := 0, payload := none, terminal := true }

/-- `searchStep` (SearchRunner.c lines 256-293): pop the next frontier node;
if the request budget is spent or the frontier is exhausted, emit the
terminal callback and free the search; otherwise resolve the candidate via
`NodeStore_getBest`, skipping candidates whose resolved ip6 differs, record
`lastNodeAsked`, dispatch one RPC and increment `totalRequests`.  The result
is the new state, the observer calls made, and the addresses sent an RPC. -/
def searchStep (env : Env) (target : Address) (s : SState) :
    SState × List ObsCall × List Address :=
  match hg : SearchStore_getNextNode target s.frontier with
  | (none, f') =>
    ({ s with frontier := f', alive := false }, [terminalCall], [])
  | (some cand, f') =>
    if MAX_REQUESTS_PER_SEARCH ≤ s.totalRequests then
      ({ s with frontier := f', alive := false }, [terminalCall], [])
    else
      match env.getBest cand with
      | some node =>
        if node.address.ip6 = cand.ip6 then
          ({ s with frontier := f', lastNodeAsked := node.address, totalRequests := s.totalRequests + 1 }, [], [node.address])
        else
          searchStep env target { s with frontier := f' }
      | none => searchStep env target { s with frontier := f' }
termination_by countUnqueried s.frontier
decreasing_by
  all_goals
    have h := (getNextNode_count target s.frontier).1
    rw [hg] at h
    simp only [Option.isSome_some, forall_const] at h
    simp only [countUnqueried]
    simp only [countUnqueried] at h
    omega

/-- An event delivered to one search by the event loop: an in-order or late
reply (`RouterModule` invokes `searchCallback` with the responding node), an
RPC failure (`searchCallback` invoked with a `NULL` node, guarded at
SearchRunner.c line 242), or the progress timer (`searchNextNode`). -/
inductive Event where
  | reply (fromNode : Node) (lag : Nat) (result : Dict)
  | rpcFail (lag : Nat)
  | timer
deriving DecidableEq, Repr

/-- Processing of one event by the search: `searchNextNode` (timer) resets
the timeout and runs `searchStep`; `searchCallback` runs the reply pipeline
when `fromNode` is non-null, applies its search-store insertions, invokes
the observer with the event's node/lag/payload, and runs `searchStep`.  A
freed (or crashed) search processes nothing: its allocator scope has
released the timer and all RPC promises. -/
def handleEvent (env : Env) (myAddress : List Nat) (target : Address)
    (s : SState) (e : Event) : SState × List ObsCall × List Address :=
  if s.alive = false then (s, [], [])
  else
    match e with
    | .timer => searchStep env target s
    | .rpcFail lag =>
      let r := searchStep env target s
      (r.1, { node := none, lag := lag, payload := none, terminal := false } :: r.2.1, r.2.2)
    | .reply fromNode lag result =>
      match searchReplyCallback env myAddress target s.lastNodeAsked.path
          fromNode.address result with
      | none => ({ s with alive := false, crashed := true }, [], [])
      | some eff =>
        let s1 := { s with
          frontier := eff.inserts.foldl (fun f a => SearchStore_addNodeToSearch a f) s.frontier }
        let r := searchStep env target s1
        (r.1,
          { node := some fromNode.address, lag := lag, payload := some result,
            terminal := false } :: r.2.1,
          r.2.2)

/-- Run a finite sequence of events against one search, accumulating the
observer calls and dispatched RPCs in order. -/
def runTrace (env : Env) (myAddress : List Nat) (target : Address) :
    SState → List Event → SState × List ObsCall × List Address
  | s, [] => (s, [], [])
  | s, e :: rest =>
    let r1 := handleEvent env myAddress target s e
    let r2 := runTrace env myAddress target r1.1 rest
    (r2.1, r1.2.1 ++ r2.2.1, r1.2.2 ++ r2.2.2)

/-- The state of a freshly created search (SearchRunner.c lines 381-398):
zero requests sent, zeroed `lastNodeAsked`, frontier seeded by
`SearchStore_addNodeToSearch` over the closest known nodes. -/
def initSearch (seed : List Address) : SState :=
  { totalRequests := 0, lastNodeAsked := zeroAddress,
    frontier := seed.foldl (fun f a => SearchStore_addNodeToSearch a f) [],
    alive := true, crashed := false }

/-- True when no observer call follows a terminal call in the log. -/
def noCallAfterTerminal : List ObsCall → Bool
  | [] => true
  | c :: rest => if c.terminal then rest.isEmpty else noCallAfterTerminal rest

/-- Admission and bookkeeping of `SearchRunner_search` (SearchRunner.c lines
345-407), restricted to its observable contract: given the concurrency cap,
the current number of active searches and whether `NodeStore_getClosestNodes`
returned any seed node, it yields `none` (the C `NULL`) and an unchanged
count, or `some ()` (a promise handle) and an incremented count. -/
def SearchRunner_search (maxConcurrent : Nat) (searches : Nat)
    (seedNonempty : Bool) : Option Unit × Nat :=
  if maxConcurrent < searches then (none, searches)
  else if seedNonempty = false then (none, searches)
  else (some (), searches + 1)

/-- A runner-level operation: an admission attempt (`SearchRunner_search`)
or the release of one live search (`searchOnFree`, which decrements the
count; the C code asserts it is positive). -/
inductive RunnerOp where
  | start (seedNonempty : Bool)
  | free
deriving DecidableEq, Repr

/-- The active-search count after a sequence of runner operations. -/
def runOps (maxConcurrent : Nat) : Nat → List RunnerOp → Nat
  | n, [] => n
  | n, .start seed :: rest => runOps maxConcurrent (SearchRunner_search maxConcurrent n seed).2 rest
  | n, .free :: rest => runOps maxConcurrent (n - 1) rest

/-- The fields of one linked-list node read by
`SearchRunner_showActiveSearch`. -/
structure SearchSnapshot where
  target : Address
  lastNodeAsked : Address
  totalRequests : Nat
deriving DecidableEq, Repr

/-- `struct SearchRunner_SearchData` as filled by
`SearchRunner_showActiveSearch`: the 16 target bytes, the last node asked,
the request count, and the global active-search count. -/
structure SearchData where
  target : List Nat
  lastNodeAsked : Address
  totalRequests : Nat
  activeSearches : Nat
deriving DecidableEq, Repr

/-- The `while (search && number > 0)` walk of
`SearchRunner_showActiveSearch` (SearchRunner.c lines 326-330). -/
def walkSearchList : List SearchSnapshot → Nat → Option SearchSnapshot
  | [], _ => none
  | s :: _, 0 => some s
  | _ :: rest, n + 1 => walkSearchList rest n

/-- `SearchRunner_showActiveSearch` (SearchRunner.c lines 321-343): walk the
active list `number` steps; the output is `calloc`ed (all fields zero), the
per-search fields are copied only when a search was found, and
`activeSearches` is always set to the runner's current count. -/
def SearchRunner_showActiveSearch (searchList : List SearchSnapshot)
    (searchesCount : Nat) (number : Nat) : SearchData :=
  match walkSearchList searchList number with
  | some s =>
    { target := s.target.ip6, lastNodeAsked := s.lastNodeAsked,
      totalRequests := s.totalRequests, activeSearches := searchesCount }
  | none =>
    { target := List.replicate 16 0, lastNodeAsked := zeroAddress,
      totalRequests := 0, activeSearches := searchesCount }

/-- Case analysis of one `searchStep`: the request counter grows by exactly
the number of dispatched RPCs; the crash flag is untouched; and the step
either terminates the search (terminal callback, no RPC) or keeps it alive
(no callback, exactly one RPC, dispatched only under budget). -/
theorem searchStep_spec (env : Env) (target : Address) (s : SState) :
    (searchStep env target s).1.totalRequests
        = s.totalRequests + (searchStep env target s).2.2.length ∧
    (searchStep env target s).1.crashed = s.crashed ∧
    (((searchStep env target s).1.alive = false ∧
        (searchStep env target s).2.1 = [terminalCall] ∧
        (searchStep env target s).2.2 = []) ∨
      ((searchStep env target s).1.alive = s.alive ∧
        (searchStep env target s).2.1 = [] ∧
        (searchStep env target s).2.2.length = 1 ∧
        s.totalRequests < MAX_REQUESTS_PER_SEARCH)) := by
  induction s using searchStep.induct env target with
  | case1 x f' hg =>
    rw [searchStep.eq_def, hg]
    simp
  | case2 x cand f' hg hbudget =>
    rw [searchStep.eq_def, hg]
    simp [hbudget]
  | case3 x cand f' hg hbudget n hn hip =>
    rw [searchStep.eq_def, hg]
    simp [hbudget, hn, hip]
    omega
  | case4 x cand f' hg hbudget n hn hip ih =>
    rw [searchStep.eq_def, hg]
    simp only [hbudget, if_false, hn, hip]
    simpa using ih
  | case5 x cand f' hg hbudget hn ih =>
    rw [searchStep.eq_def, hg]
    simp only [hbudget, if_false, hn]
    simpa using ih

/-- A step never pushes the request counter beyond the budget. -/
theorem searchStep_le (env : Env) (target : Address) (s : SState)
    (h : s.totalRequests ≤ MAX_REQUESTS_PER_SEARCH) :
    (searchStep env target s).1.totalRequests ≤ MAX_REQUESTS_PER_SEARCH := by
  obtain ⟨h1, -, h3⟩ := searchStep_spec env target s
  rcases h3 with ⟨-, -, hr⟩ | ⟨-, -, hr, hlt⟩
  · simp only [hr, List.length_nil, Nat.add_zero] at h1
    omega
  · omega

/-- A freed or crashed search ignores every event. -/
theorem handleEvent_eq_dead (env : Env) (myAddress : List Nat) (target : Address)
    (s : SState) (e : Event) (ha : s.alive = false) :
    handleEvent env myAddress target s e = (s, [], []) := by
  simp [handleEvent, ha]

/-- A timer event on a live search is exactly one `searchStep`. -/
theorem handleEvent_eq_timer (env : Env) (myAddress : List Nat) (target : Address)
    (s : SState) (ha : s.alive = true) :
    handleEvent env myAddress target s .timer = searchStep env target s := by
  simp [handleEvent, ha]

/-- An RPC failure on a live search invokes the observer with a null node
and then runs one `searchStep`. -/
theorem handleEvent_eq_rpcFail (env : Env) (myAddress : List Nat) (target : Address)
    (s : SState) (lag : Nat) (ha : s.alive = true) :
    handleEvent env myAddress target s (.rpcFail lag) =
      ((searchStep env target s).1,
        { node := none, lag := lag, payload := none, terminal := false }
          :: (searchStep env target s).2.1,
        (searchStep env target s).2.2) := by
  simp [handleEvent, ha]

/-- A reply that reaches the undefined-behaviour path of
`searchReplyCallback` crashes the search: no observer call, no RPC. -/
theorem handleEvent_eq_reply_crash (env : Env) (myAddress : List Nat) (target : Address)
    (s : SState) (fromNode : Node) (lag : Nat) (result : Dict) (ha : s.alive = true)
    (hp : searchReplyCallback env myAddress target s.lastNodeAsked.path
        fromNode.address result = none) :
    handleEvent env myAddress target s (.reply fromNode lag result) =
      ({ s with alive := false, crashed := true }, [], []) := by
  simp [handleEvent, ha, hp]

/-- An in-order or late reply on a live search: the pipeline's insertions
extend the frontier, the observer sees the reply, and one `searchStep`
runs. -/
theorem handleEvent_eq_reply (env : Env) (myAddress : List Nat) (target : Address)
    (s : SState) (fromNode : Node) (lag : Nat) (result : Dict) (eff : ReplyEffects)
    (ha : s.alive = true)
    (hp : searchReplyCallback env myAddress target s.lastNodeAsked.path
        fromNode.address result = some eff) :
    handleEvent env myAddress target s (.reply fromNode lag result) =
      ((searchStep env target
          { s with frontier :=
              eff.inserts.foldl (fun f a => SearchStore_addNodeToSearch a f) s.frontier }).1,
        { node := some fromNode.address, lag := lag, payload := some result,
            terminal := false }
          :: (searchStep env target
              { s with frontier :=
                  eff.inserts.foldl (fun f a => SearchStore_addNodeToSearch a f) s.frontier }).2.1,
        (searchStep env target
            { s with frontier :=
                eff.inserts.foldl (fun f a => SearchStore_addNodeToSearch a f) s.frontier }).2.2) := by
  simp [handleEvent, ha, hp]

/-- One event changes the request counter by exactly the number of RPCs it
dispatched, and keeps it within the budget. -/
theorem handleEvent_total (env : Env) (myAddress : List Nat) (target : Address)
    (s : SState) (e : Event) :
    (handleEvent env myAddress target s e).1.totalRequests
        = s.totalRequests + (handleEvent env myAddress target s e).2.2.length ∧
    (s.totalRequests ≤ MAX_REQUESTS_PER_SEARCH →
      (handleEvent env myAddress target s e).1.totalRequests ≤ MAX_REQUESTS_PER_SEARCH) := by
  by_cases ha : s.alive = true
  · cases e with
    | timer =>
      rw [handleEvent_eq_timer env myAddress target s ha]
      exact ⟨(searchStep_spec env target s).1, searchStep_le env target s⟩
    | rpcFail lag =>
      rw [handleEvent_eq_rpcFail env myAddress target s lag ha]
      exact ⟨(searchStep_spec env target s).1, searchStep_le env target s⟩
    | reply fromNode lag result =>
      rcases hp : searchReplyCallback env myAddress target s.lastNodeAsked.path
          fromNode.address result with - | eff
      · rw [handleEvent_eq_reply_crash env myAddress target s fromNode lag result ha hp]
        simp
      · rw [handleEvent_eq_reply env myAddress target s fromNode lag result eff ha hp]
        refine ⟨(searchStep_spec env target _).1, fun h => searchStep_le env target _ h⟩
  · have ha' : s.alive = false := by
      cases hsa : s.alive
      · rfl
      · exact absurd hsa ha
    rw [handleEvent_eq_dead env myAddress target s e ha']
    simp

/-- The request counter over a whole trace: it equals the starting value
plus the number of dispatched RPCs, and never leaves the budget. -/
theorem runTrace_total (env : Env) (myAddress : List Nat) (target : Address) :
    ∀ (trace : List Event) (s : SState),
      (runTrace env myAddress target s trace).1.totalRequests
          = s.totalRequests + (runTrace env myAddress target s trace).2.2.length ∧
      (s.totalRequests ≤ MAX_REQUESTS_PER_SEARCH →
        (runTrace env myAddress target s trace).1.totalRequests ≤ MAX_REQUESTS_PER_SEARCH) := by
  intro trace
  induction trace with
  | nil => intro s; simp [runTrace]
  | cons e rest ih =>
    intro s
    obtain ⟨h1, h2⟩ := handleEvent_total env myAddress target s e
    obtain ⟨ih1, ih2⟩ := ih (handleEvent env myAddress target s e).1
    simp only [runTrace]
    constructor
    · simp only [List.length_append]
      omega
    · intro h
      exact ih2 (h2 h)

/-- C1: for every search and every sequence of reply, RPC-failure and timer
events, the count of outbound RPCs never exceeds
`MAX_REQUESTS_PER_SEARCH = 8`: over any trace from a fresh search the
counter stays `≤ 8` and equals the number of dispatched RPCs (it is
incremented exactly once per RPC); and whenever `searchStep` runs on a
state with `totalRequests ≥ 8` it dispatches no RPC, emits the terminal
callback, and frees the search. -/
theorem C1_request_budget (env : Env) (myAddress : List Nat) (target : Address)
    (seed : List Address) (trace : List Event) (s₀ : SState) (k : Nat) :
    (runTrace env myAddress target (initSearch seed) trace).1.totalRequests
        ≤ MAX_REQUESTS_PER_SEARCH ∧
    (runTrace env myAddress target (initSearch seed) trace).1.totalRequests
        = (runTrace env myAddress target (initSearch seed) trace).2.2.length ∧
    (searchStep env target
        { s₀ with totalRequests := MAX_REQUESTS_PER_SEARCH + k }).2.2 = [] ∧
    (searchStep env target
        { s₀ with totalRequests := MAX_REQUESTS_PER_SEARCH + k }).2.1 = [terminalCall] ∧
    (searchStep env target
        { s₀ with totalRequests := MAX_REQUESTS_PER_SEARCH + k }).1.alive = false := by
  obtain ⟨h1, h2⟩ := runTrace_total env myAddress target trace (initSearch seed)
  have h0 : (initSearch seed).totalRequests = 0 := rfl
  rw [h0] at h1 h2
  refine ⟨h2 (by omega), by omega, ?_⟩
  obtain ⟨-, -, hd⟩ :=
    searchStep_spec env target { s₀ with totalRequests := MAX_REQUESTS_PER_SEARCH + k }
  rcases hd with ⟨ha, hcall, hrpc⟩ | ⟨-, -, -, hlt⟩
  · exact ⟨hrpc, hcall, ha⟩
  · exfalso
    have : MAX_REQUESTS_PER_SEARCH + k < MAX_REQUESTS_PER_SEARCH := hlt
    omega

/-- Prepending calls that are not terminal does not affect whether a log
has calls after its terminal call. -/
theorem noCallAfterTerminal_append (l1 l2 : List ObsCall)
    (h : l1.all (fun c => !c.terminal) = true) :
    noCallAfterTerminal (l1 ++ l2) = noCallAfterTerminal l2 := by
  induction l1 with
  | nil => rfl
  | cons c rest ih =>
    simp only [List.all_cons, Bool.and_eq_true, Bool.not_eq_true'] at h
    simp [noCallAfterTerminal, h.1, ih h.2]

/-- Case analysis of one event on a live search: either it stays alive and
no terminal call is made; or it ends normally with exactly one terminal
call and nothing after it; or it crashes with no call at all.  The crash
flag is set only by the crash case. -/
theorem handleEvent_shape (env : Env) (myAddress : List Nat) (target : Address)
    (s : SState) (e : Event) (ha : s.alive = true) :
    (handleEvent env myAddress target s e).2.1.all
        (fun c => !c.terminal || (c == terminalCall)) = true ∧
    (((handleEvent env myAddress target s e).1.alive = true ∧
      (handleEvent env myAddress target s e).1.crashed = s.crashed ∧
      (handleEvent env myAddress target s e).2.1.all (fun c => !c.terminal) = true) ∨
    ((handleEvent env myAddress target s e).1.alive = false ∧
      (handleEvent env myAddress target s e).1.crashed = s.crashed ∧
      (handleEvent env myAddress target s e).2.1.countP (fun c => c.terminal) = 1 ∧
      noCallAfterTerminal (handleEvent env myAddress target s e).2.1 = true) ∨
    ((handleEvent env myAddress target s e).1.alive = false ∧
      (handleEvent env myAddress target s e).1.crashed = true ∧
      (handleEvent env myAddress target s e).2.1 = [])) := by
  cases e with
  | timer =>
    rw [handleEvent_eq_timer env myAddress target s ha]
    obtain ⟨-, hc, hd⟩ := searchStep_spec env target s
    rcases hd with ⟨h1, h2, -⟩ | ⟨h1, h2, -, -⟩
    · refine ⟨by simp [h2], ?_⟩
      right; left
      exact ⟨h1, hc, by simp [h2, terminalCall], by simp [h2, noCallAfterTerminal, terminalCall]⟩
    · refine ⟨by simp [h2], ?_⟩
      left
      rw [h1, ha]
      exact ⟨rfl, hc, by simp [h2]⟩
  | rpcFail lag =>
    rw [handleEvent_eq_rpcFail env myAddress target s lag ha]
    obtain ⟨-, hc, hd⟩ := searchStep_spec env target s
    rcases hd with ⟨h1, h2, -⟩ | ⟨h1, h2, -, -⟩
    · refine ⟨by simp [h2], ?_⟩
      right; left
      refine ⟨h1, hc, ?_, ?_⟩
      · simp [h2, List.countP_cons, terminalCall]
      · simp [h2, noCallAfterTerminal, terminalCall]
    · refine ⟨by simp [h2], ?_⟩
      left
      rw [h1, ha]
      exact ⟨rfl, hc, by simp [h2]⟩
  | reply fromNode lag result =>
    rcases hp : searchReplyCallback env myAddress target s.lastNodeAsked.path
        fromNode.address result with - | eff
    · rw [handleEvent_eq_reply_crash env myAddress target s fromNode lag result ha hp]
      exact ⟨rfl, Or.inr (Or.inr ⟨rfl, rfl, rfl⟩)⟩
    · rw [handleEvent_eq_reply env myAddress target s fromNode lag result eff ha hp]
      obtain ⟨-, hc, hd⟩ := searchStep_spec env target
        { s with frontier :=
            eff.inserts.foldl (fun f a => SearchStore_addNodeToSearch a f) s.frontier }
      rcases hd with ⟨h1, h2, -⟩ | ⟨h1, h2, -, -⟩
      · refine ⟨by simp [h2], ?_⟩
        right; left
        refine ⟨h1, hc, ?_, ?_⟩
        · simp [h2, List.countP_cons, terminalCall]
        · simp [h2, noCallAfterTerminal, terminalCall]
      · refine ⟨by simp [h2], ?_⟩
        left
        rw [h1]
        exact ⟨ha, hc, by simp [h2]⟩

/-- A freed or crashed search stays frozen over any remaining trace. -/
theorem runTrace_dead (env : Env) (myAddress : List Nat) (target : Address) :
    ∀ (trace : List Event) (s : SState), s.alive = false →
      runTrace env myAddress target s trace = (s, [], []) := by
  intro trace
  induction trace with
  | nil => intro s _; rfl
  | cons e rest ih =>
    intro s h
    simp only [runTrace, handleEvent_eq_dead env myAddress target s e h]
    simp [ih s h]

/-- Over any trace from a live uncrashed search, the observer log contains
the terminal call exactly once when the search has ended normally, zero
times while it is still alive or after a crash, and never contains a call
after the terminal one. -/
theorem runTrace_shape (env : Env) (myAddress : List Nat) (target : Address) :
    ∀ (trace : List Event) (s : SState), s.alive = true → s.crashed = false →
      ((runTrace env myAddress target s trace).2.1.countP (fun c => c.terminal)
          = if (runTrace env myAddress target s trace).1.alive
              || (runTrace env myAddress target s trace).1.crashed then 0 else 1) ∧
      noCallAfterTerminal (runTrace env myAddress target s trace).2.1 = true ∧
      (runTrace env myAddress target s trace).2.1.all
          (fun c => !c.terminal || (c == terminalCall)) = true := by
  intro trace
  induction trace with
  | nil =>
    intro s ha hc
    simp [runTrace, noCallAfterTerminal, ha]
  | cons e rest ih =>
    intro s ha hc
    rcases handleEvent_shape env myAddress target s e ha
      with ⟨hct, ⟨h1, h2, h3⟩ | ⟨h1, h2, h3, h4⟩ | ⟨h1, h2, h3⟩⟩
    · obtain ⟨ih1, ih2, ih3⟩ := ih (handleEvent env myAddress target s e).1 h1 (h2.trans hc)
      simp only [runTrace]
      refine ⟨?_, ?_, ?_⟩
      · rw [List.countP_append]
        have hc1 : (handleEvent env myAddress target s e).2.1.countP
            (fun c => c.terminal) = 0 := by
          rw [List.countP_eq_zero]
          intro c hcmem
          have := List.all_eq_true.mp h3 c hcmem
          simpa using this
        rw [hc1, ih1]
        simp
      · rw [noCallAfterTerminal_append _ _ h3]
        exact ih2
      · rw [List.all_append, hct, ih3]
        rfl
    · have hdead := runTrace_dead env myAddress target rest
        (handleEvent env myAddress target s e).1 h1
      simp only [runTrace, hdead]
      refine ⟨?_, ?_, ?_⟩
      · simp [List.countP_append, h3, h1, h2, hc]
      · simpa using h4
      · simpa using hct
    · have hdead := runTrace_dead env myAddress target rest
        (handleEvent env myAddress target s e).1 h1
      simp only [runTrace, hdead]
      simp [h3, h1, h2, noCallAfterTerminal]

/-- A trivial concrete environment, used by the closed evaluation
theorems: an empty node store, identity-like splice, no valid addresses,
and a version-list parser that always fails. -/
def env0 : Env :=
  { prefixOf := fun _ => [], validAddress := fun _ => false,
    splice := fun a _ => a, nodeForPath := fun _ => none,
    getBest := fun _ => none, parseVersions := fun _ => none }

/-- C2 (counterexample): the observer is NOT invoked with a null node
exactly once per search.  A single RPC-failure event on a fresh search
with an empty frontier produces two null-node observer invocations: one
for the failure (`searchCallback` forwards the `NULL` `fromNode` at
SearchRunner.c line 247) and one for the terminal emission of the
subsequent `searchStep`. -/
theorem C2_null_node_not_unique :
    ((runTrace env0 [] zeroAddress (initSearch []) [Event.rpcFail 7]).2.1.countP
        (fun c => c.node.isNone)) = 2 := by
  have h1 : searchStep env0 zeroAddress { totalRequests := 0, lastNodeAsked := zeroAddress, frontier := [], alive := true, crashed := false } = ({ totalRequests := 0, lastNodeAsked := zeroAddress, frontier := [], alive := false, crashed := false }, [terminalCall], []) := by
    rw [searchStep.eq_def]
    rfl
  simp [runTrace, handleEvent, initSearch, h1, terminalCall]

/-- C2 (amended): over every event trace, the terminal observer invocation
(ghost-marked, with content `(null node, 0 latency, null payload)`) occurs
exactly once when the search has ended normally and zero times while it is
alive or crashed; no observer invocation of any kind follows it; every
terminal-marked call has exactly the terminal content; and each RPC-failure
event delivered to a live search additionally invokes the observer with a
null node and null payload as a non-terminal call. -/
theorem C2_terminal_callback (env : Env) (myAddress : List Nat) (target : Address)
    (seed : List Address) (trace : List Event) (s' : SState) (lag : Nat) :
    ((runTrace env myAddress target (initSearch seed) trace).2.1.countP
        (fun c => c.terminal)
      = if (runTrace env myAddress target (initSearch seed) trace).1.alive
          || (runTrace env myAddress target (initSearch seed) trace).1.crashed
        then 0 else 1) ∧
    noCallAfterTerminal
        (runTrace env myAddress target (initSearch seed) trace).2.1 = true ∧
    (runTrace env myAddress target (initSearch seed) trace).2.1.all
        (fun c => !c.terminal || (c == terminalCall)) = true ∧
    ((handleEvent env myAddress target s' (.rpcFail lag)).2.1.head?.map
        (fun c => (c.node, c.payload, c.terminal))
      = if s'.alive then some (none, none, false) else none) := by
  obtain ⟨h1, h2, h3⟩ := runTrace_shape env myAddress target trace (initSearch seed) rfl rfl
  refine ⟨h1, h2, h3, ?_⟩
  by_cases ha : s'.alive = true
  · rw [handleEvent_eq_rpcFail env myAddress target s' lag ha]
    simp [ha]
  · have ha' : s'.alive = false := by
      cases hsa : s'.alive
      · rfl
      · exact absurd hsa ha
    rw [handleEvent_eq_dead env myAddress target s' (.rpcFail lag) ha']
    simp [ha']

/-- C3: the progress filter.  A record whose spliced address is not
strictly closer to the search target than the responding node
(`Address_closest ≥ 0`, SearchRunner.c line 214) contributes no insertion
to the frontier, whatever else happens to it. -/
theorem C3_progress_filter (env : Env) (myAddress : List Nat) (target : Address)
    (lastAskedPath : Nat) (fromAddr : Address) (nodes vs : List Nat) (i : Nat)
    (h : 0 ≤ Address_closest target (recordAddr env nodes vs i fromAddr) fromAddr) :
    (recordEffect env myAddress target lastAskedPath fromAddr nodes vs i).insert = none := by
  by_cases h1 : isDuplicateEntry nodes i
  · simp [recordEffect, h1]
  · by_cases h2 : (recordAddr env nodes vs i fromAddr).path = UINT64_MAX
    · simp [recordEffect, h1, h2]
    · by_cases h3 : myAddress = (recordAddr env nodes vs i fromAddr).ip6
      · simp [recordEffect, h1, h2, h3]
      · by_cases h4 : env.validAddress (recordAddr env nodes vs i fromAddr).ip6 = true
        · simp [recordEffect, h1, h2, h3, h4, h]
        · simp [recordEffect, h1, h2, h3, h4]

/-- A concrete environment whose node store is empty, every address is
valid, splicing is the identity on the inner path, and prefixes are all
zero; used for closed instantiations. -/
def envA : Env :=
  { prefixOf := fun _ => List.replicate 16 0, validAddress := fun _ => true,
    splice := fun a _ => a, nodeForPath := fun _ => none,
    getBest := fun _ => none, parseVersions := fun _ => some [] }

/-- Closed instance of `C3_progress_filter`: a record at distance equal to
the responder's (comparison `0`) is not inserted. -/
theorem C3_witness :
    (0 : Int) ≤ Address_closest zeroAddress
        (recordAddr envA (List.replicate 40 0) [1] 0 zeroAddress) zeroAddress ∧
    (recordEffect envA [1] zeroAddress 0 zeroAddress (List.replicate 40 0) [1] 0).insert
        = none :=
  ⟨by decide, C3_progress_filter envA [1] zeroAddress 0 zeroAddress
      (List.replicate 40 0) [1] 0 (by decide)⟩

/-- Unfolding equation of the record loop. -/
theorem processRecords_step (env : Env) (myAddress : List Nat) (target : Address)
    (p : Nat) (fromAddr : Address) (nodes vs : List Nat) (i : Nat) :
    processRecords env myAddress target p fromAddr nodes vs i =
      if i < nodes.length then
        (if (recordEffect env myAddress target p fromAddr nodes vs i).brk then emptyEffects
         else mergeEffects
            { rumors := (recordEffect env myAddress target p fromAddr nodes vs i).rumor.toList,
              brokens := (recordEffect env myAddress target p fromAddr nodes vs i).broken.toList,
              inserts := (recordEffect env myAddress target p fromAddr nodes vs i).insert.toList }
            (processRecords env myAddress target p fromAddr nodes vs
              (i + Address_SERIALIZED_SIZE)))
      else emptyEffects := by
  rw [processRecords.eq_def]

/-- The rumor-mill intake, broken-path report and loop-break decision of a
record do not depend on the `lastNodeAsked` path: only the frontier
insertion is guarded by the late-reply check. -/
theorem recordEffect_frame (env : Env) (myAddress : List Nat) (target : Address)
    (p p' : Nat) (fromAddr : Address) (nodes vs : List Nat) (i : Nat) :
    (recordEffect env myAddress target p fromAddr nodes vs i).rumor
        = (recordEffect env myAddress target p' fromAddr nodes vs i).rumor ∧
    (recordEffect env myAddress target p fromAddr nodes vs i).broken
        = (recordEffect env myAddress target p' fromAddr nodes vs i).broken ∧
    (recordEffect env myAddress target p fromAddr nodes vs i).brk
        = (recordEffect env myAddress target p' fromAddr nodes vs i).brk := by
  by_cases h1 : isDuplicateEntry nodes i
  · simp [recordEffect, h1]
  · by_cases h2 : (recordAddr env nodes vs i fromAddr).path = UINT64_MAX
    · simp [recordEffect, h1, h2]
    · by_cases h3 : myAddress = (recordAddr env nodes vs i fromAddr).ip6
      · simp [recordEffect, h1, h2, h3]
      · by_cases h4 : env.validAddress (recordAddr env nodes vs i fromAddr).ip6 = true
        · simp [recordEffect, h1, h2, h3, h4]
        · simp [recordEffect, h1, h2, h3, h4]

/-- A record of a late reply is never inserted into the frontier. -/
theorem recordEffect_late_insert (env : Env) (myAddress : List Nat) (target : Address)
    (p : Nat) (fromAddr : Address) (nodes vs : List Nat) (i : Nat)
    (hp : p ≠ fromAddr.path) :
    (recordEffect env myAddress target p fromAddr nodes vs i).insert = none := by
  by_cases h1 : isDuplicateEntry nodes i
  · simp [recordEffect, h1]
  · by_cases h2 : (recordAddr env nodes vs i fromAddr).path = UINT64_MAX
    · simp [recordEffect, h1, h2]
    · by_cases h3 : myAddress = (recordAddr env nodes vs i fromAddr).ip6
      · simp [recordEffect, h1, h2, h3]
      · by_cases h4 : env.validAddress (recordAddr env nodes vs i fromAddr).ip6 = true
        · simp [recordEffect, h1, h2, h3, h4, hp]
        · simp [recordEffect, h1, h2, h3, h4]

/-- The whole record loop of a late reply produces no frontier insertion. -/
theorem processRecords_late (env : Env) (myAddress : List Nat) (target : Address)
    (p : Nat) (fromAddr : Address) (nodes vs : List Nat) (hp : p ≠ fromAddr.path) :
    ∀ i, (processRecords env myAddress target p fromAddr nodes vs i).inserts = [] := by
  have H : ∀ n i, nodes.length - i ≤ n →
      (processRecords env myAddress target p fromAddr nodes vs i).inserts = [] := by
    intro n
    induction n with
    | zero =>
      intro i hle
      rw [processRecords_step]
      have hni : ¬ i < nodes.length := by omega
      simp [hni, emptyEffects]
    | succ n ih =>
      intro i hle
      rw [processRecords_step]
      by_cases hi : i < nodes.length
      · simp only [hi, if_true]
        by_cases hbrk : (recordEffect env myAddress target p fromAddr nodes vs i).brk = true
        · simp [hbrk, emptyEffects]
        · have hrec := ih (i + Address_SERIALIZED_SIZE)
            (by simp only [Address_SERIALIZED_SIZE]; omega)
          simp [hbrk, mergeEffects, hrec,
            recordEffect_late_insert env myAddress target p fromAddr nodes vs i hp]
      · simp [hi, emptyEffects]
  intro i
  exact H (nodes.length - i) i (le_refl _)

/-- `searchReplyCallback` either crashes, drops the reply with no effects,
or runs the record loop from offset 0. -/
theorem searchReplyCallback_cases (env : Env) (myAddress : List Nat) (target : Address)
    (p : Nat) (fromAddr : Address) (result : Dict) :
    searchReplyCallback env myAddress target p fromAddr result = none ∨
    searchReplyCallback env myAddress target p fromAddr result = some emptyEffects ∨
    ∃ nodes vs, result.n = some nodes ∧
      searchReplyCallback env myAddress target p fromAddr result
        = some (processRecords env myAddress target p fromAddr nodes vs 0) := by
  unfold searchReplyCallback
  rcases hn : result.n with - | nodes
  · rcases hv : result.np with - | vstr
    · right; left; rfl
    · rcases hpv : env.parseVersions vstr with - | vs
      · right; left; dsimp only; simp only [hpv]
      · left; dsimp only; simp only [hpv]
  · by_cases hlen : nodes.length = 0 ∨ nodes.length % Address_SERIALIZED_SIZE ≠ 0
    · right; left
      dsimp only
      rw [if_pos hlen]
    · rcases hv : result.np with - | vstr
      · right; left
        dsimp only
        rw [if_neg hlen]
      · rcases hpv : env.parseVersions vstr with - | vs
        · right; left
          dsimp only
          rw [if_neg hlen]
          simp only [hpv]
        · by_cases hvl : vs.length ≠ nodes.length / Address_SERIALIZED_SIZE
          · right; left
            dsimp only
            rw [if_neg hlen]
            simp only [hpv]
            rw [if_pos hvl]
          · right; right
            refine ⟨nodes, vs, rfl, ?_⟩
            dsimp only
            rw [if_neg hlen]
            simp only [hpv]
            rw [if_neg hvl]

/-- Any effects a late reply produces contain no frontier insertion. -/
theorem searchReplyCallback_late_inserts (env : Env) (myAddress : List Nat)
    (target : Address) (p : Nat) (fromAddr : Address) (result : Dict)
    (eff : ReplyEffects) (hp : p ≠ fromAddr.path)
    (h : searchReplyCallback env myAddress target p fromAddr result = some eff) :
    eff.inserts = [] := by
  rcases searchReplyCallback_cases env myAddress target p fromAddr result
    with hc | hc | ⟨nodes, vs, -, hc⟩
  · rw [hc] at h; cases h
  · rw [hc] at h
    injection h with h
    subst h
    rfl
  · rw [hc] at h
    injection h with h
    subst h
    exact processRecords_late env myAddress target p fromAddr nodes vs hp 0

/-- C4: a late reply (sender path differs from `lastNodeAsked.path`) never
extends the frontier, yet its per-record side effects (rumor-mill intake,
broken-path reports, loop-break decisions) are exactly those of an in-order
reply, and the observer is still invoked with the reply. -/
theorem C4_late_reply (env : Env) (myAddress : List Nat) (target : Address)
    (p p' : Nat) (fromAddr : Address) (nodes vs : List Nat) (i : Nat)
    (s : SState) (fromNode : Node) (lag : Nat) (result : Dict)
    (eff eff' : ReplyEffects) :
    ((recordEffect env myAddress target p fromAddr nodes vs i).rumor
        = (recordEffect env myAddress target p' fromAddr nodes vs i).rumor ∧
      (recordEffect env myAddress target p fromAddr nodes vs i).broken
        = (recordEffect env myAddress target p' fromAddr nodes vs i).broken ∧
      (recordEffect env myAddress target p fromAddr nodes vs i).brk
        = (recordEffect env myAddress target p' fromAddr nodes vs i).brk) ∧
    (p ≠ fromAddr.path →
      searchReplyCallback env myAddress target p fromAddr result = some eff' →
      eff'.inserts = []) ∧
    (s.alive = true →
      searchReplyCallback env myAddress target s.lastNodeAsked.path
          fromNode.address result = some eff →
      (handleEvent env myAddress target s (.reply fromNode lag result)).2.1.head?
        = some { node := some fromNode.address, lag := lag, payload := some result, terminal := false }) := by
  refine ⟨recordEffect_frame env myAddress target p p' fromAddr nodes vs i,
    fun hp h => searchReplyCallback_late_inserts env myAddress target p fromAddr
      result eff' hp h,
    fun ha hp => ?_⟩
  rw [handleEvent_eq_reply env myAddress target s fromNode lag result eff ha hp]
  rfl

/-- Closed instance of `C4_late_reply`: a late empty reply inserts nothing
and the observer still sees it. -/
theorem C4_witness :
    emptyEffects.inserts = [] ∧
    (handleEvent env0 [] zeroAddress (initSearch [])
        (.reply { address := zeroAddress } 5 { n := none, np := none })).2.1.head?
      = some { node := some zeroAddress, lag := 5, payload := some { n := none, np := none }, terminal := false } := by
  have h := C4_late_reply env0 [] zeroAddress 1 0 zeroAddress [] [] 0 (initSearch [])
    { address := zeroAddress } 5 { n := none, np := none } emptyEffects emptyEffects
  exact ⟨h.2.1 (by decide) rfl, h.2.2 rfl rfl⟩

/-- The duplicate scan reports nothing once the offset passes the end of
the node string. -/
theorem dupScan_stop (nodes : List Nat) (index i : Nat) (h : nodes.length ≤ i) :
    dupScan nodes index i = false := by
  rw [dupScan.eq_def]
  have : ¬ i < nodes.length := by omega
  simp [this]

/-- A record with no record after it is never a duplicate. -/
theorem isDuplicateEntry_last (nodes : List Nat) (index : Nat)
    (h : nodes.length ≤ index + Address_SERIALIZED_SIZE) :
    isDuplicateEntry nodes index = false := by
  rw [isDuplicateEntry, dupScan.eq_def]
  by_cases h0 : index < nodes.length
  · simp [h0, dupScan_stop nodes index (index + Address_SERIALIZED_SIZE) h]
  · simp [h0]

/-- C8: a record (not a duplicate, with a splicable route) whose derived
prefix equals the runner's own address produces exactly one
`NodeStore_brokenPath` call with the spliced path, no rumor-mill intake, no
frontier insertion, and the loop continues with the remaining records
(SearchRunner.c lines 194-199). -/
theorem C8_loop_detect (env : Env) (myAddress : List Nat) (target : Address)
    (p : Nat) (fromAddr : Address) (nodes vs : List Nat) (i : Nat)
    (hd : isDuplicateEntry nodes i = false)
    (hs : (recordAddr env nodes vs i fromAddr).path ≠ UINT64_MAX)
    (hm : myAddress = (recordAddr env nodes vs i fromAddr).ip6)
    (hi : i < nodes.length) :
    recordEffect env myAddress target p fromAddr nodes vs i
      = { rumor := none, broken := some (recordAddr env nodes vs i fromAddr).path, insert := none, brk := false } ∧
    (processRecords env myAddress target p fromAddr nodes vs i).brokens
      = (recordAddr env nodes vs i fromAddr).path
          :: (processRecords env myAddress target p fromAddr nodes vs
              (i + Address_SERIALIZED_SIZE)).brokens ∧
    (processRecords env myAddress target p fromAddr nodes vs i).rumors
      = (processRecords env myAddress target p fromAddr nodes vs
          (i + Address_SERIALIZED_SIZE)).rumors ∧
    (processRecords env myAddress target p fromAddr nodes vs i).inserts
      = (processRecords env myAddress target p fromAddr nodes vs
          (i + Address_SERIALIZED_SIZE)).inserts := by
  have he : recordEffect env myAddress target p fromAddr nodes vs i
      = { rumor := none, broken := some (recordAddr env nodes vs i fromAddr).path, insert := none, brk := false } := by
    simp [recordEffect, hd, hs, hm]
  refine ⟨he, ?_, ?_, ?_⟩ <;>
    · rw [processRecords_step]
      simp [hi, he, mergeEffects]

/-- A concrete environment whose derived prefixes are all `7`-bytes, used
for the loop-route instantiation. -/
def envB : Env :=
  { prefixOf := fun _ => List.replicate 16 7, validAddress := fun _ => true,
    splice := fun a _ => a, nodeForPath := fun _ => none,
    getBest := fun _ => none, parseVersions := fun _ => some [] }

/-- Closed instance of `C8_loop_detect`: a looping record reports exactly
its spliced path as broken and nothing else. -/
theorem C8_witness :
    recordEffect envB (List.replicate 16 7) zeroAddress 0 zeroAddress
        (List.replicate 40 0) [0] 0
      = { rumor := none, broken := some 0, insert := none, brk := false } := by
  have h := C8_loop_detect envB (List.replicate 16 7) zeroAddress 0 zeroAddress
    (List.replicate 40 0) [0] 0
    (isDuplicateEntry_last (List.replicate 40 0) 0 (by decide))
    (by decide) (by decide) (by decide)
  exact h.1

/-- C9: a record (not a duplicate, splicable, not a loop route) whose
derived address fails `AddressCalc_validAddress` breaks the record loop:
it contributes nothing itself and every later record of the reply is left
unprocessed, while any non-breaking record keeps its own effects and
passes control to the rest of the loop (SearchRunner.c lines 201-206). -/
theorem C9_garbage_breaks (env : Env) (myAddress : List Nat) (target : Address)
    (p : Nat) (fromAddr : Address) (nodes vs : List Nat) (i j : Nat)
    (hd : isDuplicateEntry nodes i = false)
    (hs : (recordAddr env nodes vs i fromAddr).path ≠ UINT64_MAX)
    (hm : myAddress ≠ (recordAddr env nodes vs i fromAddr).ip6)
    (hv : env.validAddress (recordAddr env nodes vs i fromAddr).ip6 = false)
    (hi : i < nodes.length) (hj : j < nodes.length)
    (hbrk : (recordEffect env myAddress target p fromAddr nodes vs j).brk = false) :
    recordEffect env myAddress target p fromAddr nodes vs i
      = { rumor := none, broken := none, insert := none, brk := true } ∧
    processRecords env myAddress target p fromAddr nodes vs i = emptyEffects ∧
    processRecords env myAddress target p fromAddr nodes vs j
      = mergeEffects
          { rumors := (recordEffect env myAddress target p fromAddr nodes vs j).rumor.toList,
            brokens := (recordEffect env myAddress target p fromAddr nodes vs j).broken.toList,
            inserts := (recordEffect env myAddress target p fromAddr nodes vs j).insert.toList }
          (processRecords env myAddress target p fromAddr nodes vs
            (j + Address_SERIALIZED_SIZE)) := by
  have he : recordEffect env myAddress target p fromAddr nodes vs i
      = { rumor := none, broken := none, insert := none, brk := true } := by
    simp [recordEffect, hd, hs, hm, hv]
  refine ⟨he, ?_, ?_⟩
  · rw [processRecords_step]
    simp [hi, he]
  · rw [processRecords_step]
    simp [hj, hbrk]

/-- Closed instance of `C9_garbage_breaks`: an invalid address at offset 40
of an 80-byte reply leaves the rest of the loop with no effects. -/
theorem C9_witness :
    recordEffect env0 [1] zeroAddress 0 zeroAddress (List.replicate 80 0) [0, 0] 40
      = { rumor := none, broken := none, insert := none, brk := true } ∧
    processRecords env0 [1] zeroAddress 0 zeroAddress (List.replicate 80 0) [0, 0] 40
      = emptyEffects := by
  have hdup : isDuplicateEntry (List.replicate 80 0) 0 = true := by
    rw [isDuplicateEntry, dupScan.eq_def]
    simp only [List.length_replicate, Address_SERIALIZED_SIZE, Address_KEY_SIZE]
    norm_num
    rw [dupScan.eq_def]
    simp only [List.length_replicate, Address_SERIALIZED_SIZE, Address_KEY_SIZE]
    norm_num [List.drop_replicate, List.take_replicate]
  have hbrk0 : (recordEffect env0 [1] zeroAddress 0 zeroAddress (List.replicate 80 0) [0, 0] 0).brk = false := by
    unfold recordEffect
    rw [hdup]
    rfl
  have h := C9_garbage_breaks env0 [1] zeroAddress 0 zeroAddress
    (List.replicate 80 0) [0, 0] 40 0
    (isDuplicateEntry_last (List.replicate 80 0) 40 (by decide))
    (by decide) (by decide) rfl (by decide) (by decide)
    hbrk0
  exact ⟨h.1, h.2.1⟩

/-- C5 (counterexample): `SearchRunner_search` can return null without
creating a search or changing the count even though the admission condition
`active_count > max_concurrent` is false — it also returns null when
`NodeStore_getClosestNodes` yields no seed (SearchRunner.c lines 371-374).
This refutes the claimed "exactly when". -/
theorem C5_null_without_saturation :
    SearchRunner_search 3 0 false = (none, 0) ∧ ¬ 3 < 0 := by
  decide

/-- C5 (amended): `SearchRunner_search` refuses with null and an unchanged
count whenever `active_count > max_concurrent` (the admission test, line
351) or the seed is empty; it creates a search and increments the count
otherwise; a null return never changes the count; and over every sequence
of start and free operations `active_count ≤ max_concurrent + 1`. -/
theorem C5_admission (maxConcurrent n : Nat) (seed : Bool) (ops : List RunnerOp) :
    (maxConcurrent < n → SearchRunner_search maxConcurrent n seed = (none, n)) ∧
    (¬ maxConcurrent < n → SearchRunner_search maxConcurrent n false = (none, n)) ∧
    (¬ maxConcurrent < n → SearchRunner_search maxConcurrent n true = (some (), n + 1)) ∧
    ((SearchRunner_search maxConcurrent n seed).1 = none →
      (SearchRunner_search maxConcurrent n seed).2 = n) ∧
    runOps maxConcurrent 0 ops ≤ maxConcurrent + 1 := by
  have H : ∀ (l : List RunnerOp) (m : Nat), m ≤ maxConcurrent + 1 →
      runOps maxConcurrent m l ≤ maxConcurrent + 1 := by
    intro l
    induction l with
    | nil => intro m hm; simpa [runOps] using hm
    | cons op rest ih =>
      intro m hm
      cases op with
      | start seed' =>
        simp only [runOps]
        apply ih
        unfold SearchRunner_search
        by_cases hc : maxConcurrent < m
        · simp [hc]
          omega
        · cases seed' <;> simp [hc] <;> omega
      | free =>
        simp only [runOps]
        apply ih
        omega
  refine ⟨?_, ?_, ?_, ?_, H ops 0 (by omega)⟩
  · intro hc
    simp [SearchRunner_search, hc]
  · intro hc
    simp [SearchRunner_search, hc]
  · intro hc
    simp [SearchRunner_search, hc]
  · intro hnull
    unfold SearchRunner_search at *
    by_cases hc : maxConcurrent < n
    · simp [hc]
    · cases seed <;> simp [hc] at *

/-- Closed instance of `C5_admission`: saturation refusal, empty-seed
refusal, successful admission, and the `max_concurrent + 1` bound on a
concrete operation sequence. -/
theorem C5_witness :
    SearchRunner_search 3 5 true = (none, 5) ∧
    SearchRunner_search 3 2 false = (none, 2) ∧
    SearchRunner_search 3 2 true = (some (), 3) ∧
    runOps 3 0 [RunnerOp.start true, RunnerOp.start true, RunnerOp.free] ≤ 4 :=
  ⟨(C5_admission 3 5 true []).1 (by decide),
    (C5_admission 3 2 false []).2.1 (by decide),
    (C5_admission 3 2 true []).2.2.1 (by decide),
    (C5_admission 3 0 true [RunnerOp.start true, RunnerOp.start true, RunnerOp.free]).2.2.2.2⟩

/-- C6: the malformed-reply checks of `searchReplyCallback` at the failing
input.  A reply with no `n` entry whose `np` entry parses reaches the
undefined-behaviour path — line 157 evaluates `nodes->len` with
`nodes == NULL` — instead of being dropped (first conjunct, the code bug).
The remaining conjuncts evaluate the neighbouring drop paths, which behave
as the claim says: both entries missing, `n` of non-multiple length, `np`
missing, and version-list length mismatch are all dropped with no
effects. -/
theorem C6_missing_nodes_crash :
    searchReplyCallback envA [] zeroAddress 0 zeroAddress { n := none, np := some [] } = none ∧
    searchReplyCallback envA [] zeroAddress 0 zeroAddress { n := none, np := none }
      = some emptyEffects ∧
    searchReplyCallback envA [] zeroAddress 0 zeroAddress { n := some [1], np := some [] }
      = some emptyEffects ∧
    searchReplyCallback envA [] zeroAddress 0 zeroAddress
        { n := some (List.replicate 40 0), np := none } = some emptyEffects ∧
    searchReplyCallback envA [] zeroAddress 0 zeroAddress
        { n := some (List.replicate 40 0), np := some [] } = some emptyEffects := by
  refine ⟨rfl, rfl, by decide, by decide, by decide⟩

/-- The list walk of the inspector runs off the end of a short list. -/
theorem walkSearchList_none (l : List SearchSnapshot) :
    ∀ n : Nat, l.length ≤ n → walkSearchList l n = none := by
  induction l with
  | nil => intro n _; cases n <;> rfl
  | cons s rest ih =>
    intro n h
    cases n with
    | zero => simp at h
    | succ m =>
      simp only [walkSearchList]
      exact ih m (by simpa using h)

/-- C10: for every index at or past the number of live searches,
`SearchRunner_showActiveSearch` returns the `calloc`ed record — zero
target, zero last-asked address, zero request count — with the
`activeSearches` field still set to the runner's global count. -/
theorem C10_inspect_out_of_range (l : List SearchSnapshot) (cnt n : Nat)
    (h : l.length ≤ n) :
    SearchRunner_showActiveSearch l cnt n
      = { target := List.replicate 16 0, lastNodeAsked := zeroAddress, totalRequests := 0, activeSearches := cnt } := by
  simp [SearchRunner_showActiveSearch, walkSearchList_none l n h]

/-- Closed instance of `C10_inspect_out_of_range`: index 2 of a one-element
list yields the zeroed record with the live count 9. -/
theorem C10_witness :
    SearchRunner_showActiveSearch
        [{ target := zeroAddress, lastNodeAsked := zeroAddress, totalRequests := 5 }] 9 2
      = { target := List.replicate 16 0, lastNodeAsked := zeroAddress, totalRequests := 0, activeSearches := 9 } :=
  C10_inspect_out_of_range
    [{ target := zeroAddress, lastNodeAsked := zeroAddress, totalRequests := 5 }] 9 2
    (by decide)

/-- Characterization of the duplicate scan from an offset strictly past
`index`: it reports a duplicate exactly when some visited offset
(`i + 40k`) within the string carries the same leading
`Address_KEY_SIZE`-byte block as `index`. -/
theorem dupScan_iff (nodes : List Nat) (index : Nat) :
    ∀ i, index < i →
      (dupScan nodes index i = true ↔
        ∃ k : Nat, i + Address_SERIALIZED_SIZE * k < nodes.length ∧
          (nodes.drop index).take Address_KEY_SIZE
            = (nodes.drop (i + Address_SERIALIZED_SIZE * k)).take Address_KEY_SIZE) := by
  have H : ∀ n : Nat, ∀ i, nodes.length - i ≤ n → index < i →
      (dupScan nodes index i = true ↔
        ∃ k : Nat, i + Address_SERIALIZED_SIZE * k < nodes.length ∧
          (nodes.drop index).take Address_KEY_SIZE
            = (nodes.drop (i + Address_SERIALIZED_SIZE * k)).take Address_KEY_SIZE) := by
    intro n
    induction n with
    | zero =>
      intro i hle hlt
      rw [dupScan.eq_def]
      have hni : ¬ i < nodes.length := by omega
      simp only [hni, if_false]
      constructor
      · intro h
        cases h
      · rintro ⟨k, hk, -⟩
        exfalso
        have hik : i ≤ i + Address_SERIALIZED_SIZE * k := Nat.le_add_right _ _
        omega
    | succ n ih =>
      intro i hle hlt
      rw [dupScan.eq_def]
      by_cases hi : i < nodes.length
      · have hne : ¬ i = index := by omega
        simp only [hi, if_true, hne, if_false]
        by_cases hse : (nodes.drop index).take Address_KEY_SIZE
            = (nodes.drop i).take Address_KEY_SIZE
        · simp only [hse, if_true]
          constructor
          · intro _
            refine ⟨0, ?_, ?_⟩
            · simpa using hi
            · simp [hse]
          · intro _
            trivial
        · simp only [hse, if_false]
          have hstep : nodes.length - (i + Address_SERIALIZED_SIZE) ≤ n := by
            simp only [Address_SERIALIZED_SIZE]
            omega
          have hlt' : index < i + Address_SERIALIZED_SIZE := by
            simp only [Address_SERIALIZED_SIZE]
            omega
          rw [ih (i + Address_SERIALIZED_SIZE) hstep hlt']
          constructor
          · rintro ⟨k, hk, hkeq⟩
            have harith : i + Address_SERIALIZED_SIZE + Address_SERIALIZED_SIZE * k
                = i + Address_SERIALIZED_SIZE * (k + 1) := by
              ring
            rw [harith] at hk hkeq
            exact ⟨k + 1, hk, hkeq⟩
          · rintro ⟨k, hk, hkeq⟩
            cases k with
            | zero =>
              exfalso
              apply hse
              simpa using hkeq
            | succ k' =>
              have harith : i + Address_SERIALIZED_SIZE * (k' + 1)
                  = i + Address_SERIALIZED_SIZE + Address_SERIALIZED_SIZE * k' := by
                ring
              rw [harith] at hk hkeq
              exact ⟨k', hk, hkeq⟩
      · have hni : ¬ i < nodes.length := hi
        simp only [hni, if_false]
        constructor
        · intro h
          cases h
        · rintro ⟨k, hk, -⟩
          exfalso
          have hik : i ≤ i + Address_SERIALIZED_SIZE * k := Nat.le_add_right _ _
          omega
  intro i hlt
  exact H (nodes.length - i) i (le_refl _) hlt
/-- Merging no effects on the left is the identity. -/
theorem mergeEffects_emptyEffects (r : ReplyEffects) :
    mergeEffects { rumors := [], brokens := [], inserts := [] } r = r := by
  cases r
  simp [mergeEffects]

/-- C7 (amended): a record at `index` is skipped as a duplicate exactly
when a later record offset (`index + 40k`, `k ≥ 1`) inside the reply
carries the same first `Address_KEY_SIZE = 32` bytes of the serialized
record — under the spec's "path ‖ key" layout these are the 8 path bytes
and the first 24 key bytes, not the key alone — and a skipped record
contributes nothing: the loop continues at the next offset with the same
effects. -/
theorem C7_dedup_by_first32 (env : Env) (myAddress : List Nat) (target : Address)
    (p : Nat) (fromAddr : Address) (vs nodes : List Nat) (index : Nat) :
    (isDuplicateEntry nodes index = true ↔
      ∃ k : Nat, 0 < k ∧ index + Address_SERIALIZED_SIZE * k < nodes.length ∧
        (nodes.drop index).take Address_KEY_SIZE
          = (nodes.drop (index + Address_SERIALIZED_SIZE * k)).take Address_KEY_SIZE) ∧
    (isDuplicateEntry nodes index = true → index < nodes.length →
      processRecords env myAddress target p fromAddr nodes vs index
        = processRecords env myAddress target p fromAddr nodes vs
            (index + Address_SERIALIZED_SIZE)) := by
  constructor
  · rw [isDuplicateEntry, dupScan.eq_def]
    by_cases h0 : index < nodes.length
    · simp only [h0, if_true, if_pos rfl]
      rw [dupScan_iff nodes index (index + Address_SERIALIZED_SIZE)
        (by simp [Address_SERIALIZED_SIZE])]
      constructor
      · rintro ⟨k, hk, hkeq⟩
        have harith : index + Address_SERIALIZED_SIZE + Address_SERIALIZED_SIZE * k
            = index + Address_SERIALIZED_SIZE * (k + 1) := by ring
        rw [harith] at hk hkeq
        exact ⟨k + 1, Nat.succ_pos k, hk, hkeq⟩
      · rintro ⟨k, hkpos, hk, hkeq⟩
        cases k with
        | zero => omega
        | succ k' =>
          have harith : index + Address_SERIALIZED_SIZE * (k' + 1)
              = index + Address_SERIALIZED_SIZE + Address_SERIALIZED_SIZE * k' := by ring
          rw [harith] at hk hkeq
          exact ⟨k', hk, hkeq⟩
    · simp only [h0, if_false]
      constructor
      · intro h
        cases h
      · rintro ⟨k, -, hk, -⟩
        exfalso
        have hik := Nat.le_add_right index (Address_SERIALIZED_SIZE * k)
        omega
  · intro hdup hidx
    have he : recordEffect env myAddress target p fromAddr nodes vs index
        = { rumor := none, broken := none, insert := none, brk := false } := by
      unfold recordEffect
      rw [hdup]
      rfl
    rw [processRecords_step]
    simp [hidx, he, mergeEffects_emptyEffects]

/-- Two records with identical 32-byte keys but different 8-byte paths
(spec layout "path ‖ key"). -/
def nodesC7 : List Nat :=
  [0, 0, 0, 0, 0, 0, 0, 1] ++ List.replicate 32 5 ++ [0, 0, 0, 0, 0, 0, 0, 2] ++ List.replicate 32 5

/-- C7 (counterexample): in `nodesC7` the same key occurs at record
indices 0 and 1, yet `isDuplicateEntry` does not flag index 0 — the
comparison reads the first 32 bytes of the record, which contain the path,
so dedup equality is not "by key only" as claimed. -/
theorem C7_key_dup_not_skipped :
    (Address_parse ((nodesC7.drop 0).take Address_SERIALIZED_SIZE)).key
      = (Address_parse ((nodesC7.drop 40).take Address_SERIALIZED_SIZE)).key ∧
    isDuplicateEntry nodesC7 0 = false := by
  constructor
  · decide
  · have s1 : dupScan nodesC7 0 0 = dupScan nodesC7 0 (0 + Address_SERIALIZED_SIZE) := by
      rw [dupScan.eq_def]
      rw [if_pos (by decide : 0 < nodesC7.length), if_pos rfl]
    have s2 : dupScan nodesC7 0 (0 + Address_SERIALIZED_SIZE)
        = dupScan nodesC7 0 (0 + Address_SERIALIZED_SIZE + Address_SERIALIZED_SIZE) := by
      rw [dupScan.eq_def]
      rw [if_pos (by decide : 0 + Address_SERIALIZED_SIZE < nodesC7.length)]
      rw [if_neg (by decide : ¬ (0 + Address_SERIALIZED_SIZE = 0))]
      rw [if_neg (by decide : ¬ ((nodesC7.drop 0).take Address_KEY_SIZE
        = (nodesC7.drop (0 + Address_SERIALIZED_SIZE)).take Address_KEY_SIZE))]
    rw [isDuplicateEntry, s1, s2]
    exact dupScan_stop _ _ _ (by decide)

/-- Closed instance of `C7_dedup_by_first32`: two fully identical records
make index 0 a duplicate and the loop skips it with no effect. -/
theorem C7_witness :
    (∃ k : Nat, 0 < k ∧ 0 + Address_SERIALIZED_SIZE * k < (List.replicate 80 0).length ∧
      ((List.replicate 80 0).drop 0).take Address_KEY_SIZE
        = ((List.replicate 80 0).drop (0 + Address_SERIALIZED_SIZE * k)).take Address_KEY_SIZE) ∧
    processRecords env0 [1] zeroAddress 0 zeroAddress (List.replicate 80 0) [0, 0] 0
      = processRecords env0 [1] zeroAddress 0 zeroAddress (List.replicate 80 0) [0, 0]
          (0 + Address_SERIALIZED_SIZE) := by
  have hdup : isDuplicateEntry (List.replicate 80 0) 0 = true := by
    rw [isDuplicateEntry, dupScan.eq_def]
    simp only [List.length_replicate, Address_SERIALIZED_SIZE, Address_KEY_SIZE]
    norm_num
    rw [dupScan.eq_def]
    simp only [List.length_replicate, Address_SERIALIZED_SIZE, Address_KEY_SIZE]
    norm_num [List.drop_replicate, List.take_replicate]
  have h := C7_dedup_by_first32 env0 [1] zeroAddress 0 zeroAddress [0, 0]
    (List.replicate 80 0) 0
  exact ⟨h.1.mp hdup, h.2 hdup (by decide)⟩

end SearchRunner
